import Mathlib

/-!
# Verification of the lessweb dependency-injection and type-coercion core

Shallow embedding of `src/lessweb/typecast.py` and `src/lessweb/ioc.py`.

Conventions of the embedding:
* Python JSON-representable runtime values are `PyValue` (floats as `Rat`,
  which suffices because the only float facts used are "is a float, not an
  int" and numeric equality).
* Python type annotations handled by `typecast` are `Tp`.  The embedding
  covers the JSON-representable fragment that the claims quantify over:
  scalars, `Any`, `NoneType`, bare `list`/`dict`, `list[T]`, `Union`,
  `Literal`, `NewType`, `TypedDict` and plain (otherwise-unhandled) classes.
  The enum / datetime / UUID branches of `typecast` coerce through external
  parsers on values that never appear as JSON trees and are outside the
  claims; they are not modelled.
* Every `raise` site of the source gets its own constructor of a structured
  error type, so which error is raised is observable.
* Non-structural recursion (typecast re-enters itself on re-parsed data;
  autowire recurses through a dependency graph) is modelled with explicit
  fuel; running out of fuel is a distinguished error that no theorem ever
  treats as program behaviour.
-/

namespace Lessweb

/-- Python JSON-representable runtime values.  `float` is carried as a
rational: the source only ever distinguishes ints from floats and compares
them numerically.  Dicts are insertion-ordered association lists without
duplicate keys, exactly as produced by `json.loads`. -/
inductive PyValue where
  | none
  | bool (b : Bool)
  | int (n : Int)
  | float (q : Rat)
  | str (s : String)
  | list (xs : List PyValue)
  | dict (xs : List (String × PyValue))
deriving Repr

/-- Numeric view used by Python `==`: `True == 1`, `1 == 1.0` etc.
Returns the numeric value of a `bool`/`int`/`float`, else `Option.none`. -/
def PyValue.asNum : PyValue → Option Rat
  | .bool b => some (if b then 1 else 0)
  | .int n => some (n : Rat)
  | .float q => some q
  | _ => Option.none

/-- Model of Python `==` on `PyValue`s (`item == data` in the Literal branch
of `typecast`).  Numbers compare numerically across bool/int/float; lists
compare pointwise; dicts compare as equal-length key maps.  The fuel only
bounds the nesting depth of the compared values (Python `==` is total);
every theorem uses fuel at least that depth. -/
def pyEq : Nat → PyValue → PyValue → Bool
  | 0, _, _ => false
  | fuel + 1, x, y =>
    match x, y with
    | .none, .none => true
    | .str a, .str b => a == b
    | .list a, .list b =>
      a.length == b.length && (a.zip b).all (fun p => pyEq fuel p.1 p.2)
    | .dict a, .dict b =>
      a.length == b.length && a.all (fun kv =>
        match b.lookup kv.1 with
        | some w => pyEq fuel kv.2 w
        | Option.none => false)
    | x, y =>
      match x.asNum, y.asNum with
      | some a, some b => a == b
      | _, _ => false

/-- Python type annotations in the modelled fragment, after the analysis
that `inspect_type` performs (so e.g. a `TypedDict` carries its field
annotations and its `__optional_keys__`). -/
inductive Tp where
  | int
  | str
  | bool
  | float
  | nonetype
  | any
  | list0                  -- bare `list`
  | list1 (t : Tp)         -- `list[T]`
  | dict0                  -- bare `dict`
  | union (arms : List Tp)
  | literal (vals : List PyValue)
  | newtype (super : Tp)   -- NewType with `__supertype__`
  | typeddict (name : String) (fields : List (String × Tp)) (optionalKeys : List String)
  | cls (name : String)    -- any other plain class
deriving Repr

/-- One constructor per `raise` site of `typecast` (plus fuel exhaustion,
an artifact of the embedding that no theorem treats as behaviour). -/
inductive TCError where
  | fuelExhausted
  | emptyUnion (tp : Tp)                  -- line 151: f'\x7btp=\x7d is empty'
  | notAnyMember (data : PyValue) (tp : Tp)       -- line 157
  | emptyLiteral (tp : Tp)                -- line 160
  | notMemberOfLiteral (data : PyValue) (tp : Tp) -- line 164
  | notAnInstance (data : PyValue) (tp : Tp)      -- line 190: 'is not an instance of'
  | jsonDecodeFailed (s : String)         -- line 192: re-raised json.JSONDecodeError
  | notInstanceOf (data : PyValue) (tp : Tp)      -- line 196: 'is not instance of'
  | assertNotList (data : PyValue)        -- line 199 assert
  | notAnyInstanceAgg (data : PyValue) (tp : Tp) (reasons : List TCError) -- line 208
  | assertNotDict (data : PyValue)        -- line 211 assert
  | keyNotMember (key : String) (tp : Tp)         -- line 223
  | missingRequiredKeys (keys : List String)      -- line 232
  | typeNotSupported (data : PyValue) (tp : Tp)   -- line 235
deriving Repr

/-! ## CSV model (`parse_csv`, stdlib `csv.reader` on a single line)

`list(csv.reader([s]))[0]`.  Fields are separated by `,`; a field may be
quoted with `"` and `""` inside quotes is an escaped quote.  An empty input
line yields the empty row (Python: `list(csv.reader(['']))[0] == []`). -/

/-- States of the CSV field scanner: at the start of a field (where a quote
opens a quoted field), inside an unquoted field (where a quote is literal),
inside a quoted field, and just after a closing quote (where `""` is an
escaped quote). -/
inductive CsvState where
  | fieldStart
  | unquoted
  | quoted
  | afterQuote

/-- State machine for one CSV record.  `field` is the field accumulated so
far (in reverse), `acc` the completed fields (in reverse). -/
def parseCsvAux : List Char → CsvState → List Char → List String → List String
  | [], _, field, acc => ((String.mk field.reverse) :: acc).reverse
  | c :: rest, st, field, acc =>
    match st with
    | .fieldStart =>
      if c = ',' then parseCsvAux rest .fieldStart [] ((String.mk field.reverse) :: acc)
      else if c = '"' then parseCsvAux rest .quoted field acc
      else parseCsvAux rest .unquoted (c :: field) acc
    | .unquoted =>
      if c = ',' then parseCsvAux rest .fieldStart [] ((String.mk field.reverse) :: acc)
      else parseCsvAux rest .unquoted (c :: field) acc
    | .quoted =>
      if c = '"' then parseCsvAux rest .afterQuote field acc
      else parseCsvAux rest .quoted (c :: field) acc
    | .afterQuote =>
      if c = '"' then parseCsvAux rest .quoted ('"' :: field) acc
      else if c = ',' then parseCsvAux rest .fieldStart [] ((String.mk field.reverse) :: acc)
      else parseCsvAux rest .unquoted (c :: field) acc

/-- Model of `parse_csv` from typecast.py: `list(csv.reader([s]))[0]`.
An empty input line yields the empty row. -/
def parseCsv (s : String) : List String :=
  if s = "" then [] else parseCsvAux s.data .fieldStart [] []

/-! ## JSON model (stdlib `json.loads`)

A recursive-descent parser over the character list, with fuel.  It accepts
the standard JSON grammar: `null`, `true`, `false`, numbers (ints without
fraction/exponent, floats otherwise), strings with the usual escapes,
arrays and objects.  `jsonLoads` returns `Option.none` exactly when
`json.loads` raises `JSONDecodeError`, on the standard grammar; Python's
non-standard `NaN`/`Infinity` extension, its rejection of raw control
characters inside strings, and surrogate-pair combination are not
modelled (no theorem input involves them). -/

def jsonWs (cs : List Char) : List Char :=
  cs.dropWhile (fun c => c = ' ' || c = '\t' || c = '\n' || c = '\r')

def isDigit (c : Char) : Bool := '0' ≤ c && c ≤ '9'

def digitsToNat (ds : List Char) : Nat :=
  ds.foldl (fun n c => n * 10 + (c.toNat - '0'.toNat)) 0

/-- Parse a run of digits; fails if there is none. -/
def jsonDigits (cs : List Char) : Option (List Char × List Char) :=
  let ds := cs.takeWhile isDigit
  if ds.isEmpty then Option.none else some (ds, cs.drop ds.length)

/-- Parse a JSON number after an optional leading `-` has been noted. -/
def jsonNumber (cs : List Char) : Option (PyValue × List Char) := do
  let (neg, cs) := match cs with
    | '-' :: rest => (true, rest)
    | _ => (false, cs)
  let (intDs, cs) ← jsonDigits cs
  -- JSON forbids leading zeros: the integer part is `0` or starts nonzero
  if intDs.head? = some '0' ∧ intDs.length ≠ 1 then Option.none else
  let intPart : Int := (digitsToNat intDs : Int)
  let (fracDs, cs) ← match cs with
    | '.' :: rest => (jsonDigits rest).map (fun (ds, r) => (some ds, r))
    | _ => some (Option.none, cs)
  let (expVal, cs) ← (match cs with
    | 'e' :: rest | 'E' :: rest =>
      let (esign, rest) := match rest with
        | '+' :: r => ((1 : Int), r)
        | '-' :: r => ((-1 : Int), r)
        | _ => ((1 : Int), rest)
      (jsonDigits rest).map (fun (ds, r) => (some (esign * (digitsToNat ds : Int)), r))
    | _ => some (Option.none, cs) : Option (Option Int × List Char))
  let baseNum : Rat :=
    match fracDs with
    | Option.none => (intPart : Rat)
    | some ds => (intPart : Rat) + (digitsToNat ds : Rat) / ((10 : Rat) ^ ds.length)
  let signedBase : Rat := if neg then -baseNum else baseNum
  match fracDs, expVal with
  | Option.none, Option.none =>
    pure (PyValue.int (if neg then -intPart else intPart), cs)
  | _, Option.none => pure (PyValue.float signedBase, cs)
  | _, some e =>
    let scaled : Rat := if e ≥ 0 then signedBase * (10 : Rat) ^ Int.toNat e
                        else signedBase / (10 : Rat) ^ Int.toNat (-e)
    pure (PyValue.float scaled, cs)

/-- The simple escape table of JSON strings: source character after the
backslash, paired with the character it denotes. -/
def jsonEscTable : List (Char × Char) :=
  [('"', '"'), ('\\', '\\'), ('/', '/'), ('b', '\x08'), ('f', '\x0c'),
   ('n', '\n'), ('r', '\r'), ('t', '\t')]

/-- Value of one hex digit, for `\uXXXX` escapes. -/
def hexDigitVal (c : Char) : Option Nat :=
  let u := c.toLower
  if isDigit u then some (u.toNat - 48)
  else if 'a' ≤ u && u ≤ 'f' then some (u.toNat - 87)
  else Option.none

/-- Decode the four hex digits of a `\uXXXX` escape. -/
def hex4Val (a b c d : Char) : Option Nat := do
  pure ((((← hexDigitVal a) * 16 + (← hexDigitVal b)) * 16
      + (← hexDigitVal c)) * 16 + (← hexDigitVal d))

/-- Parse a JSON string body after the opening quote. -/
def jsonString : Nat → List Char → List Char → Option (String × List Char)
  | 0, _, _ => Option.none
  | _ + 1, _, [] => Option.none
  | fuel + 1, acc, c :: rest =>
    if c = '"' then some (String.mk acc.reverse, rest)
    else if c = '\\' then
      match rest with
      | 'u' :: a :: b :: cch :: d :: r =>
        match hex4Val a b cch d with
        | some n => jsonString fuel (Char.ofNat n :: acc) r
        | Option.none => Option.none
      | e :: r =>
        match jsonEscTable.lookup e with
        | some ch => jsonString fuel (ch :: acc) r
        | Option.none => Option.none
      | [] => Option.none
    else jsonString fuel (c :: acc) rest

mutual
/-- Parse one JSON value (leading whitespace already skipped by callers). -/
def jsonValue : Nat → List Char → Option (PyValue × List Char)
  | 0, _ => Option.none
  | fuel + 1, cs =>
    if cs.take 4 = "null".data then some (PyValue.none, cs.drop 4)
    else if cs.take 4 = "true".data then some (PyValue.bool true, cs.drop 4)
    else if cs.take 5 = "false".data then some (PyValue.bool false, cs.drop 5)
    else
    match cs with
    | '"' :: rest => (jsonString (fuel + 1) [] rest).map (fun (s, r) => (PyValue.str s, r))
    | '[' :: rest =>
      match jsonWs rest with
      | ']' :: rest' => some (PyValue.list [], rest')
      | rest' => jsonArrayItems fuel rest' []
    | '{' :: rest =>
      match jsonWs rest with
      | '}' :: rest' => some (PyValue.dict [], rest')
      | rest' => jsonObjectItems fuel rest' []
    | _ => jsonNumber cs

def jsonArrayItems : Nat → List Char → List PyValue → Option (PyValue × List Char)
  | 0, _, _ => Option.none
  | fuel + 1, cs, acc => do
    let (v, rest) ← jsonValue fuel cs
    match jsonWs rest with
    | ',' :: rest' => jsonArrayItems fuel (jsonWs rest') (v :: acc)
    | ']' :: rest' => some (PyValue.list (v :: acc).reverse, rest')
    | _ => Option.none

def jsonObjectItems : Nat → List Char → List (String × PyValue)
    → Option (PyValue × List Char)
  | 0, _, _ => Option.none
  | fuel + 1, cs, acc => do
    match cs with
    | '"' :: rest => do
      let (k, rest) ← jsonString (fuel + 1) [] rest
      match jsonWs rest with
      | ':' :: rest' => do
        let (v, rest'') ← jsonValue fuel (jsonWs rest')
        -- json.loads keeps the last occurrence of a duplicated key
        let acc := (acc.filter (fun kv => kv.1 ≠ k)) ++ [(k, v)]
        match jsonWs rest'' with
        | ',' :: r => jsonObjectItems fuel (jsonWs r) acc
        | '}' :: r => some (PyValue.dict acc, r)
        | _ => Option.none
      | _ => Option.none
    | _ => Option.none
end

/-- Model of `json.loads` on a text payload: parse one value surrounded by
optional whitespace; trailing garbage ("Extra data") is a parse error. -/
def jsonLoads (s : String) : Option PyValue := do
  let cs := jsonWs s.data
  -- the parser consumes at least one character per two fuel units, so this
  -- bound never exhausts on an input json.loads accepts
  let (v, rest) ← jsonValue (2 * s.length + 2) cs
  if (jsonWs rest).isEmpty then some v else Option.none

/-! ## `typecast` (typecast.py lines 141-235) -/

/-- Model of `isinstance_safe(data, tp)` (typecast.py line 36): `True` for
`Any`, ordinary `isinstance` where that does not raise, and `False` where
`isinstance` raises `TypeError` (parameterized generics, `Union`, `Literal`,
`NewType`, `TypedDict`).  Note Python's `bool` is a subclass of `int`, so an
`int`-typed `isinstance` accepts booleans.  No JSON tree is an instance of a
plain user class (`Tp.cls`). -/
def isinstancePy (data : PyValue) : Tp → Bool
  | .any => true
  | .int => match data with | .int _ => true | .bool _ => true | _ => false
  | .bool => match data with | .bool _ => true | _ => false
  | .float => match data with | .float _ => true | _ => false
  | .str => match data with | .str _ => true | _ => false
  | .nonetype => match data with | .none => true | _ => false
  | .list0 => match data with | .list _ => true | _ => false
  | .dict0 => match data with | .dict _ => true | _ => false
  | .list1 _ | .union _ | .literal _ | .newtype _ | .typeddict _ _ _ | .cls _ => false

/-- Model of `is_list_type(tp)` (typecast.py line 97). -/
def isListType : Tp → Bool
  | .list0 | .list1 _ => true
  | _ => false

/-- Model of `typing_inspect.is_optional_type`: the type is `NoneType`
itself or a Union one of whose arms is `NoneType`. -/
def isOptionalType : Tp → Bool
  | .nonetype => true
  | .union arms => arms.any (fun a => match a with | .nonetype => true | _ => false)
  | _ => false

/-- Model of `re.match(r'^\w*$', data)` (typecast.py line 189): every
character is a word character.  Python's `\w` is Unicode-aware; ASCII
letters/digits/underscore is the fragment exercised here, and it agrees
with Python on every input appearing in a theorem below (in particular
`'✔'` and `'✖'` are symbols, not word characters, in both). -/
def isWordChars (s : String) : Bool :=
  s.data.all (fun c => c.isAlphanum || c = '_')

/-- The source's `for item in type_inspect_seed[1]: try: return
typecast(data, item) except: continue` loop (typecast.py lines 152-157):
arms are tried in declared order and the first success wins; a failing arm's
exception is swallowed by the bare `except`.  Running out of fuel aborts the
whole computation instead of being swallowed, so a result other than
`fuelExhausted` is exactly Python's. -/
def unionFirst (tc : PyValue → Tp → Except TCError PyValue) (data : PyValue) (tp : Tp) :
    List Tp → Except TCError PyValue
  | [] => .error (.notAnyMember data tp)
  | arm :: rest =>
    match tc data arm with
    | .ok v => .ok v
    | .error .fuelExhausted => .error .fuelExhausted
    | .error _ => unionFirst tc data tp rest

/-- The source's `for item_key, item_value in data.items():` loop
(typecast.py lines 220-225): walk the input object's fields in order, fail
on the first key that is not a declared field, recursively coerce the
others. -/
def coerceFields (tc : PyValue → Tp → Except TCError PyValue) (tp : Tp)
    (fields : List (String × Tp)) :
    List (String × PyValue) → Except TCError (List (String × PyValue))
  | [] => .ok []
  | (k, v) :: rest =>
    match fields.lookup k with
    | Option.none => .error (.keyNotMember k tp)
    | some t =>
      match tc v t with
      | .error e => .error e
      | .ok v' =>
        match coerceFields tc tp fields rest with
        | .error e => .error e
        | .ok r => .ok ((k, v') :: r)

/-- The `origin_type == dict` branch of `typecast` (typecast.py lines
210-233).  `required_keys` is all declared fields minus `__optional_keys__`
(`__required_keys__` when there are no optional keys — the same set).
Present fields are coerced first (so an unknown key or a field coercion
error is raised before the missing-key check); then every missing required
field whose own type is optional is filled with an explicit `None`; the
remaining missing required fields raise `missing required keys`.  Missing
optional fields are never added. -/
def recordCoerce (tc : PyValue → Tp → Except TCError PyValue) (data : PyValue) (tp : Tp)
    (fields : List (String × Tp)) (optionalKeys : List String) : Except TCError PyValue :=
  match data with
  | .dict items =>
    let allKeys := fields.map Prod.fst
    let requiredKeys := if optionalKeys.isEmpty then allKeys
      else allKeys.filter (fun k => ¬ optionalKeys.contains k)
    let missingKeys := requiredKeys.filter (fun k => ¬ (items.map Prod.fst).contains k)
    match coerceFields tc tp fields items with
    | .error e => .error e
    | .ok result =>
      let noneValueKeys := missingKeys.filter (fun k =>
        match fields.lookup k with
        | some t => isOptionalType t
        | Option.none => false)
      let result := result ++ noneValueKeys.map (fun k => (k, PyValue.none))
      let remaining := missingKeys.filter (fun k => ¬ noneValueKeys.contains k)
      if remaining.isEmpty then .ok (.dict result)
      else .error (.missingRequiredKeys remaining)
  | _ => .error (.assertNotDict data)

/-- Model of `typecast(data, tp)` (typecast.py lines 141-235), fuel-indexed.
The branch order follows the source: Union / Literal / NewType dispatch on
the inspected type first; then the `isinstance` identity return; the
enum / datetime / date / time / UUID branches are outside the modelled
fragment (no JSON tree reaches them); then the string-input branch
(str subclass construction, CSV parse for list types, `json.loads`
re-parse with the `^\w*$` distinction on parse failure); finally the
two-part inspected types (`list[T]` elementwise with an `isinstance`
assert, TypedDict via `recordCoerce`) and the unsupported-type error. -/
def typecast : Nat → PyValue → Tp → Except TCError PyValue
  | 0, _, _ => .error .fuelExhausted
  | fuel + 1, data, tp =>
    match tp with
    | .union arms =>
      if arms.isEmpty then .error (.emptyUnion tp)
      else unionFirst (typecast fuel) data tp arms
    | .literal vals =>
      if vals.isEmpty then .error (.emptyLiteral tp)
      else if vals.any (fun v => pyEq fuel v data) then .ok data
      else .error (.notMemberOfLiteral data tp)
    | .newtype super => typecast fuel data super
    | _ =>
      if isinstancePy data tp then .ok data
      else
        match data with
        | .str s =>
          match tp with
          | .str => .ok data
          | _ =>
            if isListType tp then
              typecast fuel (.list ((parseCsv s).map PyValue.str)) tp
            else
              match jsonLoads s with
              | Option.none =>
                if isWordChars s then .error (.notAnInstance data tp)
                else .error (.jsonDecodeFailed s)
              | some v => typecast fuel v tp
        | _ =>
          match tp with
          | .list1 t =>
            match data with
            | .list xs => (xs.mapM (fun x => typecast fuel x t)).map PyValue.list
            | _ => .error (.assertNotList data)
          | .typeddict _ fields optionalKeys =>
            recordCoerce (typecast fuel) data tp fields optionalKeys
          | _ => .error (.notInstanceOf data tp)

/-- Modelled from the spec: the `TypeCast` class (with `validate_query`) is
not under src/ — only its unit tests and its callers in ioc.py are.  Per the
spec's `validateQuery(raw, type)` entry point and the unit tests (which
observe `typecast`'s exact error messages through it), it applies the
`typecast` coercion of typecast.py to the single text token. -/
def validateQuery (fuel : Nat) (s : String) (tp : Tp) : Except TCError PyValue :=
  typecast fuel (.str s) tp

/-- Modelled from the spec: the `TypeCast` class (with `validate_json`) is
not under src/.  The spec's `validateBody(raw, type)` coerces JSON text (the
raw body bytes, here as a UTF-8 string) against the declared type; a string
input is JSON-parsed by `typecast` itself. -/
def validateJson (fuel : Nat) (raw : String) (tp : Tp) : Except TCError PyValue :=
  typecast fuel (.str raw) tp

/-! ## The dependency-graph resolver (ioc.py lines 53-291)

Classes are identified by name (`absolute_ref` produces the globally unique
`module.qualname` string; the model uses the name itself).  A `ClassEnv`
maps every name to its capability kind and the dependency list that
`get_depends_on(cls.__init__)` extracts (parameter names are dropped:
`autowire`/`autowire_module` only use the types).  Instance identity is a
`Nat` drawn from a monotone counter in the application state, so
"reference equality" is equality of ids. -/

/-- Capability of a class: `Module` subclass, `Middleware` subclass,
`Service` subclass, the `aiohttp` `Request` class itself, or anything
else. -/
inductive ClassKind where
  | module
  | middleware
  | service
  | requestCls
  | other
deriving Repr, DecidableEq

structure ClassDecl where
  kind : ClassKind
  deps : List String
deriving Repr

/-- Total map from class name to declaration (Python class objects always
introspect; a class with no own `__init__` inherits one with no
dependencies). -/
def ClassEnv := String → ClassDecl

/-- A resolved instance: an ordinary constructed object (with its identity),
the request object itself (`autowire(request, Request)` returns `request`),
or the literal `'✔'` placeholder used on the scan path. -/
inductive Inst where
  | obj (id : Nat)
  | requestObj (rid : Nat)
  | check
deriving Repr, DecidableEq

/-- Process-level state of the `Application`: the process registry
(`app[ref]`, `None` marking PENDING), the three lifecycle hook lists
(`APP_ON_STARTUP_KEY` etc., recorded by owning class name), the bean map
(`BEAN_MAP_KEY`: produced ref ↦ the factory's dependency class names), and
the id counter modelling object identity.  Registry writes prepend, and
lookup takes the first match, modelling dictionary overwrite. -/
structure AppState where
  registry : List (String × Option Nat)
  onStartup : List String
  onCleanup : List String
  onShutdown : List String
  beanMap : List (String × List String)
  nextId : Nat
deriving Repr

inductive IocErr where
  | fuelExhausted
  | circularDependency (cls : String)   -- RuntimeError, ioc.py lines 237 and 271
  | assertNotInjectable (cls : String)  -- assert issubclass(cls, (Middleware, Service)), line 265
deriving Repr, DecidableEq

/-- Sequential state-threading loop over a dependency list (the
`for _, depends_type in depends_on: args.append(...)` loops of ioc.py). -/
def resolveList {σ α : Type} (resolve : σ → String → Except IocErr (σ × α)) :
    σ → List String → Except IocErr (σ × List α)
  | s, [] => .ok (s, [])
  | s, d :: rest =>
    match resolve s d with
    | .error e => .error e
    | .ok (s', a) =>
      match resolveList resolve s' rest with
      | .error e => .error e
      | .ok (s'', as) => .ok (s'', a :: as)

/-- Model of `autowire_module(app, cls)` (ioc.py lines 227-249): look up the
slot (`PENDING` → circular-dependency error, `READY` → cached instance),
otherwise mark PENDING (`app[ref] = None`), resolve every `__init__`
dependency through `autowire_module` recursively, construct, store, and
append the instance's startup/cleanup/shutdown hooks.  The commented-out
`assert` in the source means there is no capability check here. -/
def autowireModule (env : ClassEnv) : Nat → AppState → String → Except IocErr (AppState × Nat)
  | 0, _, _ => .error .fuelExhausted
  | fuel + 1, app, cls =>
    match app.registry.lookup cls with
    | some Option.none => .error (.circularDependency cls)
    | some (some id) => .ok (app, id)
    | Option.none =>
      let app1 := { app with registry := (cls, Option.none) :: app.registry }
      match resolveList (autowireModule env fuel) app1 (env cls).deps with
      | .error e => .error e
      | .ok (app2, _args) =>
        let id := app2.nextId
        let app3 := { app2 with
          registry := (cls, some id) :: app2.registry,
          nextId := id + 1,
          onStartup := app2.onStartup ++ [cls],
          onCleanup := app2.onCleanup ++ [cls],
          onShutdown := app2.onShutdown ++ [cls] }
        .ok (app3, id)

/-- Per-request state: the request's identity, its path, the request
registry (`request[ref]`), the request-data-stack slot
(`request[REQUEST_STACK_KEY]`; `Option.none` models the key being absent;
stack elements are `bytes`, carried as strings), the raw body payload
(`await request.read()`), and the resolved path-template
(`request.match_info`) and query-string (`request.query`) maps. -/
structure ReqState where
  rid : Nat
  path : String
  registry : List (String × Option Inst)
  stackSlot : Option (List String)
  payload : String
  matchInfo : List (String × String)
  query : List (String × String)
deriving Repr

/-- The combined mutable state that one request sees. -/
structure Sys where
  app : AppState
  req : ReqState
deriving Repr

def LESSWEB_SCAN_PATH : String := "/__lessweb__/__scan__"

/-- Model of `autowire(request, cls)` (ioc.py lines 255-291), in source
order: `cls is Request` returns the request itself; a class neither in the
bean map nor a `Middleware`/`Service` subclass fails the `assert`; a
PENDING request slot raises the circular-dependency error and a READY slot
returns the cached instance; otherwise the slot is marked PENDING, the
dependencies (the bean factory's when registered, else the constructor's)
are resolved — `Module` subclasses through `autowire_module` on the
application, everything else through `autowire` — and the singleton is
constructed: the literal `'✔'` on the scan path, else a fresh object (by
bean factory or constructor). -/
def autowire (env : ClassEnv) : Nat → Sys → String → Except IocErr (Sys × Inst)
  | 0, _, _ => .error .fuelExhausted
  | fuel + 1, sys, cls =>
    if (env cls).kind = .requestCls then .ok (sys, .requestObj sys.req.rid)
    else
      let isBean := (sys.app.beanMap.lookup cls).isSome
      if ¬ isBean ∧ (env cls).kind ≠ .middleware ∧ (env cls).kind ≠ .service then
        .error (.assertNotInjectable cls)
      else
        match sys.req.registry.lookup cls with
        | some Option.none => .error (.circularDependency cls)
        | some (some inst) => .ok (sys, inst)
        | Option.none =>
          let sys1 : Sys :=
            { sys with req := { sys.req with registry := (cls, Option.none) :: sys.req.registry } }
          let deps := match sys.app.beanMap.lookup cls with
            | some beanDeps => beanDeps
            | Option.none => (env cls).deps
          let resolveDep : Sys → String → Except IocErr (Sys × Inst) := fun s d =>
            if (env d).kind = .module then
              match autowireModule env fuel s.app d with
              | .error e => .error e
              | .ok (app', id) => .ok ({ s with app := app' }, .obj id)
            else autowire env fuel s d
          match resolveList resolveDep sys1 deps with
          | .error e => .error e
          | .ok (sys2, _args) =>
            let (inst, app') :=
              if sys2.req.path = LESSWEB_SCAN_PATH then (Inst.check, sys2.app)
              else (Inst.obj sys2.app.nextId, { sys2.app with nextId := sys2.app.nextId + 1 })
            .ok ({ app := app',
                   req := { sys2.req with registry := (cls, some inst) :: sys2.req.registry } },
                 inst)

/-! ## The request data stack (ioc.py lines 326-368) -/

/-- Model of `get_request_stack(request)` (ioc.py lines 326-340): return
the stored stack if the slot holds a non-empty list (the walrus condition
`request.get(...) and isinstance(..., list)` is falsy for an empty list);
otherwise (first access, or an empty stack) store and return a fresh empty
list. -/
def getRequestStack (req : ReqState) : ReqState × List String :=
  match req.stackSlot with
  | some l => if l.isEmpty then ({ req with stackSlot := some [] }, []) else (req, l)
  | Option.none => ({ req with stackSlot := some [] }, [])

/-- A Python value in the argument position of `push_request_stack`:
either a `bytes` payload or any non-bytes object. -/
inductive PyArg where
  | bytes (b : String)
  | nonBytes (v : PyValue)
deriving Repr

/-- Model of `push_request_stack(request, value)` (ioc.py lines 343-368):
a non-bytes value raises `TypeError('value must be bytes')` before the
stack is touched; a bytes value is appended to the stack returned by
`get_request_stack`. -/
def pushRequestStack (req : ReqState) (v : PyArg) : Except String ReqState :=
  match v with
  | .nonBytes _ => .error "value must be bytes"
  | .bytes b =>
    let (req1, stack) := getRequestStack req
    .ok { req1 with stackSlot := some (stack ++ [b]) }

/-! ## The request binder (`autowire_handler.aio_route_endpoint`, ioc.py
lines 386-438): walk the handler's parameters in declaration order and
assemble the positional arguments (BODY) and keyword arguments
(QUERY_OR_PATH or injected). -/

/-- A handler parameter's annotated base type: the `bytes` class, a type
handled by the coercion engine, or a plain class (for injected
parameters). -/
inductive Ann where
  | bytes
  | ty (t : Tp)
  | cls (c : String)
deriving Repr

/-- `inspect` parameter kinds as the binder distinguishes them:
`POSITIONAL_ONLY = 0` (BODY), `KEYWORD_ONLY = 3` (QUERY_OR_PATH),
everything else (injected). -/
inductive PKind where
  | positionalOnly
  | keywordOnly
  | other
deriving Repr, DecidableEq

/-- `Annotated` metadata tags on a parameter.  A `DefaultFactory` is
modelled by the value its zero-argument `factory_func` produces. -/
inductive Meta where
  | defaultFactory (value : PyValue)
deriving Repr

/-- One entry of `func_arg_spec` plus the parameter's `Annotated` metadata:
name, base type, declared default (`Option.none` models
`inspect.Signature.empty`; `some .none` a literal `None` default), kind,
and metadata tags. -/
structure Param where
  name : String
  ann : Ann
  default : Option PyValue
  kind : PKind
  metas : List Meta
deriving Repr

/-- Model of `spawn_default_factory` (ioc.py lines 181-197): the value of
the first `DefaultFactory` tag, else `inspect.Signature.empty`
(`Option.none`). -/
def spawnDefaultFactory (metas : List Meta) : Option PyValue :=
  match metas with
  | [] => Option.none
  | .defaultFactory v :: _ => some v

/-- A bound positional argument: the raw bytes payload (for a
`bytes`-annotated BODY parameter) or a coerced value. -/
inductive ArgVal where
  | raw (b : String)
  | val (v : PyValue)
deriving Repr

/-- A bound keyword argument: a coerced/defaulted value or an injected
instance. -/
inductive KwVal where
  | val (v : PyValue)
  | inst (i : Inst)
deriving Repr

/-- One constructor per failure exit of the binder loop. -/
inductive BindErr where
  | fuelExhausted
  | stackEmptyForParam (name : String)       -- TypeError, line 398
  | invalidRequestBody                       -- rest_error(HTTPBadRequest, 'invalid request body'), line 414
  | missingRequiredParameter (name : String) -- rest_error(HTTPBadRequest, ...), line 424
  | invalidParameter (name : String)         -- rest_error(HTTPBadRequest, ...), line 433
  | iocError (e : IocErr)                    -- propagated autowire / autowire_module errors
  | injectedNotAClass (name : String)        -- model artifact: injected parameter without a class type
deriving Repr, DecidableEq

def Ann.toTp : Ann → Tp
  | .bytes => .cls "bytes"
  | .ty t => t
  | .cls c => .cls c

/-- Model of the parameter loop of `aio_route_endpoint` (ioc.py lines
391-438).  BODY parameters (positional-only): fetch the request stack; if
no BODY argument is bound yet and the stack is empty, use the raw payload
(`await request.read()`); if the stack is empty otherwise, raise
`request stack is empty for param`; else pop the most recently pushed
element.  A `bytes`-typed parameter takes the raw data (stack elements are
bytes by `push_request_stack`'s check, so the `isinstance` guard at line
403 always passes in the model); any other type goes through
`TypeCast.validate_json`, a `ValueError` becoming the
`invalid request body` rejection.  QUERY_OR_PATH parameters
(keyword-only): `request.match_info[name]` if present, else
`request.query.get(name)`; when absent, the declared literal default, else
a `DefaultFactory` tag's value, else `missing required parameter`; when
present, `TypeCast.validate_query`, any exception becoming
`invalid parameter`.  Other parameters: a `Module` subclass is resolved by
`autowire_module`, everything else by `autowire`.  A fuel-exhausted
coercion aborts the binder instead of being converted, so any other
outcome is exactly Python's. -/
def bindParams (env : ClassEnv) (fuel : Nat) :
    List Param → Sys → List ArgVal → List (String × KwVal)
    → Except BindErr (Sys × List ArgVal × List (String × KwVal))
  | [], sys, args, kwargs => .ok (sys, args, kwargs)
  | p :: rest, sys, args, kwargs =>
    match p.kind with
    | .positionalOnly =>
      let (req1, stack) := getRequestStack sys.req
      let afterData : Sys → String → Except BindErr (Sys × List ArgVal × List (String × KwVal)) :=
        fun sys' requestData =>
          match p.ann with
          | .bytes => bindParams env fuel rest sys' (args ++ [.raw requestData]) kwargs
          | _ =>
            match validateJson fuel requestData p.ann.toTp with
            | .error .fuelExhausted => .error .fuelExhausted
            | .error _ => .error .invalidRequestBody
            | .ok v => bindParams env fuel rest sys' (args ++ [.val v]) kwargs
      match stack.getLast? with
      | Option.none =>
        if args.isEmpty then afterData { sys with req := req1 } req1.payload
        else .error (.stackEmptyForParam p.name)
      | some requestData =>
        afterData { sys with req := { req1 with stackSlot := some stack.dropLast } } requestData
    | .keywordOnly =>
      let queryValue : Option String :=
        match sys.req.matchInfo.lookup p.name with
        | some v => some v
        | Option.none => sys.req.query.lookup p.name
      match queryValue with
      | Option.none =>
        let dflt := match p.default with
          | some d => some d
          | Option.none => spawnDefaultFactory p.metas
        match dflt with
        | Option.none => .error (.missingRequiredParameter p.name)
        | some d => bindParams env fuel rest sys args (kwargs ++ [(p.name, .val d)])
      | some qv =>
        match validateQuery fuel qv p.ann.toTp with
        | .error .fuelExhausted => .error .fuelExhausted
        | .error _ => .error (.invalidParameter p.name)
        | .ok v => bindParams env fuel rest sys args (kwargs ++ [(p.name, .val v)])
    | .other =>
      match p.ann with
      | .cls c =>
        if (env c).kind = .module then
          match autowireModule env fuel sys.app c with
          | .error e => .error (.iocError e)
          | .ok (app', id) =>
            bindParams env fuel rest { sys with app := app' } args (kwargs ++ [(p.name, .inst (.obj id))])
        else
          match autowire env fuel sys c with
          | .error e => .error (.iocError e)
          | .ok (sys', i) => bindParams env fuel rest sys' args (kwargs ++ [(p.name, .inst i)])
      | _ => .error (.injectedNotAClass p.name)

/-! ## The response adapter (ioc.py lines 439-453) -/

/-- A handler's return value as the adapter classifies it: an aiohttp
`StreamResponse` (with its identity), a JSON-representable value, a
dataclass instance, or a `pydantic.BaseModel` instance. -/
inductive HandlerResult where
  | stream (id : Nat)
  | pyVal (v : PyValue)
  | dataclassObj (id : Nat)
  | pydanticObj (id : Nat)
deriving Repr

/-- The handler's declared return type as the adapter inspects it
(`func_annotated_metas(sp_endpoint)[0]`): a `pydantic.BaseModel` subclass,
or anything else. -/
inductive RespAnn where
  | pydanticModel (name : String)
  | other
deriving Repr, DecidableEq

/-- What `rest_response` was given to serialize: either the value freshly
re-validated by `response_type.model_validate(result)`, or the raw handler
result. -/
inductive RestPayload where
  | modelValidated (model : String) (result : HandlerResult)
  | direct (result : HandlerResult)
deriving Repr

/-- The adapter's outcome: the stream returned unchanged, a JSON response
(`rest_response`: `TypeCast.dumps` body, status 200,
`application/json`), an empty `Response(status=204)`, a text response with
the chosen content type, or the propagated `model_validate` exception. -/
inductive HttpResp where
  | passthrough (id : Nat)
  | jsonResp (payload : RestPayload)
  | noContent
  | textResp (text : String) (contentType : String)
  | validationRaised (model : String)
deriving Repr

/-- Model of Python `str()` on the scalar results the text branch can
receive. -/
def strOf : PyValue → String
  | .str s => s
  | .int n => toString n
  | .bool true => "True"
  | .bool false => "False"
  | .none => "None"
  | .float q => toString q
  | .list _ => "[...]"
  | .dict _ => "\x7b...\x7d"

def strOfResult : HandlerResult → String
  | .pyVal v => strOf v
  | .stream i => "stream" ++ toString i
  | .dataclassObj i => "dataclass" ++ toString i
  | .pydanticObj i => "model" ++ toString i

/-- Model of the result-adaptation cascade of `aio_route_endpoint`
(ioc.py lines 439-453), in source order: a `StreamResponse` result is
returned unchanged; else if the declared response type is a pydantic
model, the result is re-validated by `model_validate` (its success given
by `validateOk`) and the validated value is serialized; else a
`dict`/`list`/dataclass/`BaseModel` result is serialized to JSON; else a
`None` result becomes status 204; else the result becomes a text response
with the first `TextResponse` tag's content type
(`get_text_response_metas`), defaulting to `text/plain`. -/
def adaptResponse (respAnn : RespAnn) (textMetas : List String)
    (validateOk : String → HandlerResult → Bool) (result : HandlerResult) : HttpResp :=
  match result with
  | .stream i => .passthrough i
  | _ =>
    match respAnn with
    | .pydanticModel m =>
      if validateOk m result then .jsonResp (.modelValidated m result)
      else .validationRaised m
    | .other =>
      match result with
      | .pyVal (.dict xs) => .jsonResp (.direct (.pyVal (.dict xs)))
      | .pyVal (.list xs) => .jsonResp (.direct (.pyVal (.list xs)))
      | .dataclassObj i => .jsonResp (.direct (.dataclassObj i))
      | .pydanticObj i => .jsonResp (.direct (.pydanticObj i))
      | .pyVal .none => .noContent
      | r =>
        match textMetas with
        | ct :: _ => .textResp (strOfResult r) ct
        | [] => .textResp (strOfResult r) "text/plain"

/-! ## Fixtures: concrete types, environments and states used by the
claim theorems and their witnesses -/

/-- The type `Union[int, list[int]]` of the spec's concrete examples. -/
def tpIntOrListInt : Tp := .union [.int, .list1 .int]

/-- The record type `{name: str}` of the spec's concrete example. -/
def tpPet : Tp := .typeddict "Pet" [("name", .str)] []

/-- A record with one optional (`NotRequired`) field whose own type is
optional (`int | None`). -/
def tpOptPet : Tp := .typeddict "OptPet" [("extra", .union [.int, .nonetype])] ["extra"]

/-- Does the inspected type dispatch to the Union branch? -/
def Tp.isUnionHead : Tp → Bool
  | .union _ => true
  | _ => false

/-- Does the inspected type dispatch to the Literal branch? -/
def Tp.isLiteralHead : Tp → Bool
  | .literal _ => true
  | _ => false

/-- `Union[Literal[5], list[Literal['a']]]`: accepts the int `5` (by
literal identity) and transforms the string `'a'` into `['a']`. -/
def tpV : Tp := .union [.literal [.int 5], .list1 (.literal [.str "a"])]

/-- `list[Union[list[V], list[Union[int, str]]]]` — the type on which
`typecast` is not idempotent. -/
def tpIdem : Tp := .list1 (.union [.list1 tpV, .list1 (.union [.int, .str])])

/-- The input `[["a", "5"]]` witnessing non-idempotence of `tpIdem`. -/
def dIdem : PyValue := .list [.list [.str "a", .str "5"]]

/-- An environment with no injectable classes. -/
def envNone : ClassEnv := fun _ => ⟨.other, []⟩

/-- Every class is a dependency-free `Module`. -/
def envMod : ClassEnv := fun _ => ⟨.module, []⟩

/-- Every class is a dependency-free `Service`. -/
def envSvc : ClassEnv := fun _ => ⟨.service, []⟩

/-- The module-scope cycle `A → B → A`. -/
def envCycleM : ClassEnv := fun n =>
  if n = "A" then ⟨.module, ["B"]⟩
  else if n = "B" then ⟨.module, ["A"]⟩
  else ⟨.other, []⟩

/-- The request-scope cycle `SA → SB → SA` between two services. -/
def envCycleS : ClassEnv := fun n =>
  if n = "SA" then ⟨.service, ["SB"]⟩
  else if n = "SB" then ⟨.service, ["SA"]⟩
  else ⟨.other, []⟩

/-- A fresh application state. -/
def app0 : AppState := ⟨[], [], [], [], [], 0⟩

/-- A fresh ordinary request. -/
def reqPlain (rid : Nat) : ReqState := ⟨rid, "/pets", [], Option.none, "", [], []⟩

/-- A fresh request on the internal scan path. -/
def reqScan (rid : Nat) : ReqState := ⟨rid, LESSWEB_SCAN_PATH, [], Option.none, "", [], []⟩

/-- The application state after constructing the module `M` once. -/
def appM1 : AppState := ⟨[("M", some 0), ("M", Option.none)], ["M"], ["M"], ["M"], [], 1⟩

/-- The system state after resolving the service `S` on request 1. -/
def sysS1 : Sys :=
  ⟨⟨[], [], [], [], [], 1⟩,
   ⟨1, "/pets", [("S", some (.obj 0)), ("S", Option.none)], Option.none, "", [], []⟩⟩

/-- The system state after then resolving `S` again on a fresh request 2. -/
def sysS2 : Sys :=
  ⟨⟨[], [], [], [], [], 2⟩,
   ⟨2, "/pets", [("S", some (.obj 1)), ("S", Option.none)], Option.none, "", [], []⟩⟩

/-- A positional-only `bytes` handler parameter. -/
def bytesParam (nm : String) : Param := ⟨nm, .bytes, Option.none, .positionalOnly, []⟩

/-- A request fixture for the binder theorems, with the given stack slot. -/
def reqFix (slot : Option (List String)) : ReqState :=
  ⟨7, "/pets", [], slot, "PAYLOAD", [], []⟩

def sysFix (slot : Option (List String)) : Sys := ⟨app0, reqFix slot⟩

/-- A keyword-only parameter with both a literal default (`5`) and a
`DefaultFactory` tag (producing `7`). -/
def pBoth : Param := ⟨"a", .ty .int, some (.int 5), .keywordOnly, [.defaultFactory (.int 7)]⟩

/-- A request carrying `id` both as a path variable (`"42"`) and as a
query variable (`"999"`). -/
def sysQP : Sys := ⟨app0, ⟨3, "/pets/42", [], Option.none, "", [("id", "42")], [("id", "999")]⟩⟩

/-- State facts preserved by request-scope resolution: the bean map, the
request's path and identity, and monotonicity of the id counter. -/
def SysPres (s s1 : Sys) : Prop :=
  s1.app.beanMap = s.app.beanMap ∧ s1.req.path = s.req.path ∧
  s1.req.rid = s.req.rid ∧ s.app.nextId ≤ s1.app.nextId

/-! ## General lemmas about the union dispatch loop -/

theorem unionFirst_skip (tc : PyValue → Tp → Except TCError PyValue) (data : PyValue)
    (tp a : Tp) (rest : List Tp) (e : TCError) (h : tc data a = .error e)
    (hf : e ≠ .fuelExhausted) :
    unionFirst tc data tp (a :: rest) = unionFirst tc data tp rest := by
  conv_lhs => rw [unionFirst]
  rw [h]
  cases e <;> simp_all

theorem unionFirst_all_fail (tc : PyValue → Tp → Except TCError PyValue) (data : PyValue)
    (tp : Tp) :
    ∀ l, (∀ b ∈ l, ∃ e, tc data b = .error e ∧ e ≠ TCError.fuelExhausted) →
      unionFirst tc data tp l = .error (.notAnyMember data tp) := by
  intro l
  induction l with
  | nil => intro _; rfl
  | cons b l ih =>
    intro hl
    obtain ⟨e, he, hef⟩ := hl b (List.mem_cons_self b l)
    rw [unionFirst_skip _ _ _ _ _ _ he hef]
    exact ih (fun c hc => hl c (List.mem_cons_of_mem b hc))

theorem unionFirst_first_ok (tc : PyValue → Tp → Except TCError PyValue) (data : PyValue)
    (tp : Tp) (a : Tp) (rest : List Tp) (r : PyValue) (h : tc data a = .ok r) :
    ∀ pre, (∀ b ∈ pre, ∃ e, tc data b = .error e ∧ e ≠ TCError.fuelExhausted) →
      unionFirst tc data tp (pre ++ a :: rest) = .ok r := by
  intro pre
  induction pre with
  | nil => intro _; simp [unionFirst, h]
  | cons b l ih =>
    intro hl
    obtain ⟨e, he, hef⟩ := hl b (List.mem_cons_self b l)
    rw [List.cons_append, unionFirst_skip _ _ _ _ _ _ he hef]
    exact ih (fun c hc => hl c (List.mem_cons_of_mem b hc))

/-! ## Claim C4: Union coercion order -/

/-- C4, counterexample to the aggregation part.  When no arm of a union
succeeds on a string input, `typecast` raises the plain
`'data is not any member of tp'` error of typecast.py line 157, which
carries no per-arm reasons; the aggregating raise at lines 201-209 is
unreachable for unions because the Union dispatch at line 149 always runs
first.  Concretely, coercing the query token `"12.3"` to
`Union[int, list[int]]` produces the non-aggregated error, not the
aggregated one the claim describes (shown with the reasons the dead branch
would have collected: both arms fail on the parsed float `12.3`). -/
theorem C4_union_no_aggregation_counterexample :
    typecast 99 (.str "12.3") tpIntOrListInt
      = .error (.notAnyMember (.str "12.3") tpIntOrListInt)
  ∧ TCError.notAnyMember (.str "12.3") tpIntOrListInt
      ≠ TCError.notAnyInstanceAgg (.str "12.3") tpIntOrListInt
          [.notInstanceOf (.float (123/10)) .int, .notInstanceOf (.float (123/10)) .int] :=
  ⟨rfl, by simp⟩

/-- C4 (amended): for every union type, coercion tries the arm types in
declared order and returns the result of the first arm that succeeds; if no
arm succeeds it fails with the plain `'is not any member of'` error, which
does not aggregate the per-arm failure reasons (the aggregating branch of
typecast.py lines 201-209 is unreachable).  Coercing the query token
`"10"` to `Union[int, list[int]]` yields `10`, coercing `"11,12"` yields
`[11, 12]`, and coercing `"12.3"` fails. -/
theorem C4_union_coercion :
    (∀ f d pre a rest r,
        (∀ b ∈ pre, ∃ e, typecast f d b = .error e ∧ e ≠ TCError.fuelExhausted) →
        typecast f d a = .ok r →
        typecast (f + 1) d (.union (pre ++ a :: rest)) = .ok r)
  ∧ (∀ f d arms, arms ≠ [] →
        (∀ b ∈ arms, ∃ e, typecast f d b = .error e ∧ e ≠ TCError.fuelExhausted) →
        typecast (f + 1) d (.union arms) = .error (.notAnyMember d (.union arms)))
  ∧ validateQuery 99 "10" tpIntOrListInt = .ok (.int 10)
  ∧ validateQuery 99 "11,12" tpIntOrListInt = .ok (.list [.int 11, .int 12])
  ∧ validateQuery 99 "12.3" tpIntOrListInt
      = .error (.notAnyMember (.str "12.3") tpIntOrListInt) := by
  refine ⟨?_, ?_, rfl, rfl, rfl⟩
  · intro f d pre a rest r hpre hok
    have hne : pre ++ a :: rest ≠ [] := by simp
    simp [typecast, hne]
    exact unionFirst_first_ok _ _ _ _ _ _ hok pre hpre
  · intro f d arms hne hall
    simp [typecast, hne]
    exact unionFirst_all_fail _ _ _ arms hall

/-- Witness for C4: the first conjunct applied to `Union[bool, int]` on
`"5"` (the `bool` arm fails, the `int` arm parses 5), the second to
`Union[int, bool]` on `"x,y"` (both arms fail on the unparseable token). -/
theorem C4_union_coercion_witness :
    typecast 100 (.str "5") (.union [.bool, .int]) = .ok (.int 5)
  ∧ typecast 100 (.str "x,y") (.union [.int, .bool])
      = .error (.notAnyMember (.str "x,y") (.union [.int, .bool])) := by
  constructor
  · exact C4_union_coercion.1 99 (.str "5") [.bool] .int [] (.int 5)
      (by
        intro b hb
        simp at hb
        subst hb
        exact ⟨.notInstanceOf (.int 5) .bool, rfl, by simp⟩)
      rfl
  · exact C4_union_coercion.2.1 99 (.str "x,y") [.int, .bool] (by simp)
      (by
        intro b hb
        simp at hb
        rcases hb with h | h <;> subst h
        · exact ⟨.jsonDecodeFailed "x,y", rfl, by simp⟩
        · exact ⟨.jsonDecodeFailed "x,y", rfl, by simp⟩)

/-! ## Claim C6: Record (TypedDict) coercion -/

/-- C6, counterexample.  Coercing `{"age": 25}` to the record
`{name: str}` fails with the unknown-key error naming `"age"` (typecast.py
line 223, raised while walking the input's fields), not with the
missing-required-keys error naming `"name"` that the claim describes: the
field walk runs before the missing-key check.  Moreover a missing
*optional* field whose own type is optional is simply absent from the
result (the `None`-fill loop at lines 226-229 ranges over missing
*required* keys only), not an explicit `None` entry. -/
theorem C6_record_counterexample :
    typecast 99 (.dict [("age", .int 25)]) tpPet = .error (.keyNotMember "age" tpPet)
  ∧ TCError.keyNotMember "age" tpPet ≠ TCError.missingRequiredKeys ["name"]
  ∧ typecast 99 (.dict []) tpOptPet = .ok (.dict [])
  ∧ PyValue.dict [] ≠ PyValue.dict [("extra", PyValue.none)] :=
  ⟨rfl, by simp, rfl, by simp⟩

/-- A successful field walk means every input key is a declared field. -/
theorem coerceFields_ok_keys (tc : PyValue → Tp → Except TCError PyValue) (tp : Tp)
    (fields : List (String × Tp)) :
    ∀ (items : List (String × PyValue)) (r : List (String × PyValue)),
      coerceFields tc tp fields items = .ok r →
      ∀ kv ∈ items, (fields.lookup kv.1).isSome := by
  intro items
  induction items with
  | nil => intro r _ kv hkv; cases hkv
  | cons it rest ih =>
    intro r h kv hkv
    simp only [coerceFields] at h
    split at h
    · exact absurd h (by simp)
    · rename_i t heq
      split at h
      · exact absurd h (by simp)
      · rename_i v' heqv
        split at h
        · exact absurd h (by simp)
        · rename_i r2 heq2
          rcases List.mem_cons.mp hkv with hh | hh
          · subst hh; simp [heq]
          · exact ih r2 heq2 kv hh

/-- C6 (amended): coercing a JSON object to a TypedDict fails whenever the
object contains a key that is not a declared field (with the unknown-key
error naming that key when it is hit first), raised while coercing the
present fields, before any missing-required check — so `{name: str}` coerced from `{"age": 25}` fails
naming `"age"`.  After the field walk, a missing *required* field whose own
declared type is optional resolves to an explicit `None` entry; the
remaining missing required fields raise `missing required keys` (so
`{name: str}` coerced from `{}` fails naming `"name"`); missing optional
(`NotRequired`) fields are always simply absent from the result. -/
theorem C6_record_coercion :
    (∀ (f : Nat) n (fields : List (String × Tp)) (optKeys : List String)
        (items : List (String × PyValue)) (k : String),
        k ∈ items.map Prod.fst → fields.lookup k = Option.none →
        ∃ e, typecast (f + 1) (.dict items) (.typeddict n fields optKeys) = .error e)
  ∧ (∀ (f : Nat) n (fields : List (String × Tp)) optKeys k v rest,
        fields.lookup k = Option.none →
        typecast (f + 1) (.dict ((k, v) :: rest)) (.typeddict n fields optKeys)
          = .error (.keyNotMember k (.typeddict n fields optKeys)))
  ∧ (∀ (f : Nat) n k t, isOptionalType t = false →
        typecast (f + 1) (.dict []) (.typeddict n [(k, t)] [])
          = .error (.missingRequiredKeys [k]))
  ∧ (∀ (f : Nat) n k t, isOptionalType t = true →
        typecast (f + 1) (.dict []) (.typeddict n [(k, t)] [])
          = .ok (.dict [(k, .none)]))
  ∧ (∀ (f : Nat) n k t,
        typecast (f + 1) (.dict []) (.typeddict n [(k, t)] [k]) = .ok (.dict []))
  ∧ typecast 99 (.dict []) tpPet = .error (.missingRequiredKeys ["name"]) := by
  refine ⟨?_, ?_, ?_, ?_, ?_, rfl⟩
  · intro f n fields optKeys items k hk hnone
    obtain ⟨⟨k0, v0⟩, hmem, hk0⟩ := List.mem_map.mp hk
    subst hk0
    cases heqc : coerceFields (typecast f) (.typeddict n fields optKeys) fields items with
    | error e =>
      exact ⟨e, by simp [typecast, recordCoerce, isinstancePy, heqc]⟩
    | ok r =>
      have := coerceFields_ok_keys (typecast f) (.typeddict n fields optKeys) fields
        items r heqc (k0, v0) hmem
      rw [hnone] at this
      cases this
  · intro f n fields optKeys k v rest h
    simp [typecast, recordCoerce, coerceFields, isinstancePy, h]
  · intro f n k t h
    simp [typecast, recordCoerce, coerceFields, isinstancePy, h, List.lookup]
  · intro f n k t h
    simp [typecast, recordCoerce, coerceFields, isinstancePy, h, List.lookup]
  · intro f n k t
    simp [typecast, recordCoerce, coerceFields, isinstancePy, List.lookup]

/-- Witness for C6: the general parts applied to concrete records. -/
theorem C6_record_coercion_witness :
    typecast 5 (.dict [("x", .int 1)]) (.typeddict "T" [] [])
      = .error (.keyNotMember "x" (.typeddict "T" [] []))
  ∧ typecast 5 (.dict []) (.typeddict "T" [("k", .int)] [])
      = .error (.missingRequiredKeys ["k"])
  ∧ typecast 5 (.dict []) (.typeddict "T" [("k", .union [.int, .nonetype])] [])
      = .ok (.dict [("k", .none)]) :=
  ⟨C6_record_coercion.2.1 4 "T" [] [] "x" (.int 1) [] rfl,
   C6_record_coercion.2.2.1 4 "T" "k" .int rfl,
   C6_record_coercion.2.2.2.1 4 "T" "k" (.union [.int, .nonetype]) rfl⟩

/-! ## Claim C7: Boolean scalar coercion -/

/-- C7, counterexample.  `typecast` has no boolean special-casing: a
textual input for a `bool` target goes through `json.loads`.  `"1"` and
`"0"` parse as integers and then fail (a Python `int` is not an instance
of `bool`); `"✔"` and `"✖"` are not JSON and not word-characters, so the
`JSONDecodeError` is re-raised; `"TRUE"` is not JSON (JSON booleans are
lowercase) and is word-characters, so the `'is not an instance of'` error
is raised.  Only the exact JSON literals are accepted. -/
theorem C7_bool_counterexample :
    typecast 99 (.str "1") .bool = .error (.notInstanceOf (.int 1) .bool)
  ∧ typecast 99 (.str "0") .bool = .error (.notInstanceOf (.int 0) .bool)
  ∧ typecast 99 (.str "✔") .bool = .error (.jsonDecodeFailed "✔")
  ∧ typecast 99 (.str "✖") .bool = .error (.jsonDecodeFailed "✖")
  ∧ typecast 99 (.str "TRUE") .bool = .error (.notAnInstance (.str "TRUE") .bool)
  ∧ typecast 99 (.str "true") .bool = .ok (.bool true) :=
  ⟨rfl, rfl, rfl, rfl, rfl, rfl⟩

/-- C7 (amended): coercing a textual input to boolean JSON-parses the
input (recursively unwrapping nested JSON strings): an input whose JSON
parse is a boolean literal yields that boolean — so exactly the
case-sensitive lowercase `"true"`/`"false"` (modulo JSON whitespace and
string nesting) are accepted — while an input parsing to an integer fails,
and an unparseable input fails with the word-character distinction; in
particular `"1"`, `"0"`, `"✔"`, `"✖"` and case variants such as `"True"`
all fail. -/
theorem C7_bool_coercion :
    (∀ f s b, jsonLoads s = some (.bool b) →
        typecast (f + 2) (.str s) .bool = .ok (.bool b))
  ∧ (∀ f s, jsonLoads s = Option.none →
        typecast (f + 1) (.str s) .bool =
          if isWordChars s then .error (.notAnInstance (.str s) .bool)
          else .error (.jsonDecodeFailed s))
  ∧ (∀ f s n, jsonLoads s = some (.int n) →
        typecast (f + 2) (.str s) .bool = .error (.notInstanceOf (.int n) .bool))
  ∧ typecast 99 (.str "true") .bool = .ok (.bool true)
  ∧ typecast 99 (.str "false") .bool = .ok (.bool false)
  ∧ typecast 99 (.str "True") .bool = .error (.notAnInstance (.str "True") .bool)
  ∧ typecast 99 (.str "\"true\"") .bool = .ok (.bool true) := by
  refine ⟨?_, ?_, ?_, rfl, rfl, rfl, rfl⟩
  · intro f s b h
    simp [typecast, isinstancePy, isListType, h]
  · intro f s h
    by_cases hw : isWordChars s = true <;>
      simp [typecast, isinstancePy, isListType, h, hw]
  · intro f s n h
    simp [typecast, isinstancePy, isListType, h]

/-- Witness for C7: the general parts applied to concrete tokens
(whitespace-wrapped JSON `true`, an unparseable word, the token `"1"`). -/
theorem C7_bool_coercion_witness :
    typecast 4 (.str " true") .bool = .ok (.bool true)
  ∧ typecast 3 (.str "abc") .bool
      = (if isWordChars "abc" then .error (.notAnInstance (.str "abc") .bool)
         else .error (.jsonDecodeFailed "abc"))
  ∧ typecast 4 (.str "1") .bool = .error (.notInstanceOf (.int 1) .bool) :=
  ⟨C7_bool_coercion.1 2 " true" true rfl,
   C7_bool_coercion.2.1 2 "abc" rfl,
   C7_bool_coercion.2.2.1 2 "1" 1 rfl⟩

/-! ## General lemmas about the dependency-graph resolver -/

theorem resolveList_pres {σ α : Type} (P : σ → σ → Prop)
    (htrans : ∀ a b c, P a b → P b c → P a c) (hrefl : ∀ a, P a a)
    (resolve : σ → String → Except IocErr (σ × α))
    (hres : ∀ s d s' a, resolve s d = .ok (s', a) → P s s') :
    ∀ l s s' as, resolveList resolve s l = .ok (s', as) → P s s' := by
  intro l
  induction l with
  | nil =>
    intro s s' as h
    simp [resolveList] at h
    exact h.1 ▸ hrefl s
  | cons d rest ih =>
    intro s s' as h
    simp only [resolveList] at h
    split at h
    · exact absurd h (by simp)
    · rename_i s1 a heq
      split at h
      · exact absurd h (by simp)
      · rename_i s2 as2 heq2
        simp at h
        obtain ⟨h1, _⟩ := h
        exact htrans _ _ _ (hres s d s1 a heq) (h1 ▸ ih s1 s2 as2 heq2)

/-- After a successful `autowire_module`, the process registry holds the
returned instance for the class (the final `app[ref] = singleton` write). -/
theorem autowireModule_caches (env : ClassEnv) (f : Nat) (app : AppState) (cls : String)
    (app1 : AppState) (i : Nat) (h : autowireModule env f app cls = .ok (app1, i)) :
    app1.registry.lookup cls = some (some i) := by
  cases f with
  | zero => simp [autowireModule] at h
  | succ f =>
    simp only [autowireModule] at h
    split at h
    · exact absurd h (by simp)
    · rename_i id heq
      simp at h
      obtain ⟨h1, h2⟩ := h
      subst h1; subst h2
      exact heq
    · rename_i heq
      split at h
      · exact absurd h (by simp)
      · rename_i app2 args heq2
        simp at h
        obtain ⟨h1, h2⟩ := h
        subst h1
        simp [List.lookup, h2]

/-- `autowire_module` never touches the bean map and only increases the
instance counter. -/
theorem autowireModule_beanMap_nextId (env : ClassEnv) :
    ∀ (f : Nat) (app : AppState) (cls : String) (app1 : AppState) (i : Nat),
      autowireModule env f app cls = .ok (app1, i) →
      app1.beanMap = app.beanMap ∧ app.nextId ≤ app1.nextId := by
  intro f
  induction f with
  | zero => intro app cls app1 i h; simp [autowireModule] at h
  | succ f ih =>
    intro app cls app1 i h
    simp only [autowireModule] at h
    split at h
    · exact absurd h (by simp)
    · simp at h
      obtain ⟨h1, _⟩ := h
      subst h1
      exact ⟨rfl, le_refl _⟩
    · split at h
      · exact absurd h (by simp)
      · rename_i app2 args heq2
        simp at h
        obtain ⟨h1, _⟩ := h
        have hstep := resolveList_pres
          (fun a b => b.beanMap = a.beanMap ∧ a.nextId ≤ b.nextId)
          (by intro a b c hab hbc; exact ⟨hbc.1.trans hab.1, hab.2.trans hbc.2⟩)
          (by intro a; exact ⟨rfl, le_refl _⟩)
          (autowireModule env f)
          (by intro s d s' a hok; exact ih s d s' a hok)
          (env cls).deps _ _ _ heq2
        subst h1
        exact ⟨hstep.1, by simpa using Nat.le_succ_of_le hstep.2⟩

/-- Resolving a process-scope class a second time against the registry the
first resolution produced returns the cached instance and leaves the state
unchanged. -/
theorem autowireModule_idem (env : ClassEnv) (f g : Nat) (app : AppState) (cls : String)
    (app1 : AppState) (i : Nat) (h : autowireModule env f app cls = .ok (app1, i)) :
    autowireModule env (g + 1) app1 cls = .ok (app1, i) := by
  have hl := autowireModule_caches env f app cls app1 i h
  simp [autowireModule, hl]

theorem sysPres_refl (s : Sys) : SysPres s s := ⟨rfl, rfl, rfl, le_refl _⟩

theorem sysPres_trans {a b c : Sys} (h1 : SysPres a b) (h2 : SysPres b c) : SysPres a c :=
  ⟨h2.1.trans h1.1, h2.2.1.trans h1.2.1, h2.2.2.1.trans h1.2.2.1, h1.2.2.2.trans h2.2.2.2⟩

/-- Request-scope resolution preserves the bean map, the request's path and
identity, and only increases the instance counter. -/
theorem autowire_pres (env : ClassEnv) :
    ∀ (f : Nat) (sys : Sys) (cls : String) (sys1 : Sys) (i : Inst),
      autowire env f sys cls = .ok (sys1, i) → SysPres sys sys1 := by
  intro f
  induction f with
  | zero => intro sys cls sys1 i h; simp [autowire] at h
  | succ f ih =>
    intro sys cls sys1 i h
    simp only [autowire] at h
    split at h
    · simp at h
      obtain ⟨h1, _⟩ := h
      subst h1
      exact sysPres_refl _
    · split at h
      · exact absurd h (by simp)
      · split at h
        · exact absurd h (by simp)
        · simp at h
          obtain ⟨h1, _⟩ := h
          subst h1
          exact sysPres_refl _
        · split at h
          · exact absurd h (by simp)
          · rename_i sys2 args heq2
            have hmark : SysPres sys
                { sys with req := { sys.req with registry := (cls, Option.none) :: sys.req.registry } } :=
              ⟨rfl, rfl, rfl, le_refl _⟩
            have hdeps : SysPres
                { sys with req := { sys.req with registry := (cls, Option.none) :: sys.req.registry } }
                sys2 := by
              refine resolveList_pres SysPres (fun a b c => sysPres_trans) sysPres_refl _
                ?_ _ _ _ _ heq2
              intro s d s' a hok
              split at hok
              · split at hok
                · exact absurd hok (by simp)
                · rename_i app' id heqm
                  simp at hok
                  obtain ⟨h1, _⟩ := hok
                  subst h1
                  have := autowireModule_beanMap_nextId env f s.app d app' id heqm
                  exact ⟨this.1, rfl, rfl, this.2⟩
              · exact ih s d s' a hok
            split at h
            all_goals (
              simp at h
              obtain ⟨h1, _⟩ := h
              subst h1
              refine sysPres_trans hmark (sysPres_trans hdeps ?_))
            · exact ⟨rfl, rfl, rfl, le_refl _⟩
            · exact ⟨rfl, rfl, rfl, Nat.le_succ _⟩

/-- Resolving a class a second time on the same request returns the cached
instance (or the request object itself) and leaves the state unchanged. -/
theorem autowire_idem (env : ClassEnv) (f g : Nat) (sys : Sys) (cls : String)
    (sys1 : Sys) (i : Inst) (h : autowire env f sys cls = .ok (sys1, i)) :
    autowire env (g + 1) sys1 cls = .ok (sys1, i) := by
  cases f with
  | zero => simp [autowire] at h
  | succ f =>
    have hpres := autowire_pres env (f + 1) sys cls sys1 i h
    simp only [autowire] at h
    split at h
    · rename_i hk
      simp at h
      obtain ⟨h1, h2⟩ := h
      subst h1
      subst h2
      simp [autowire, hk]
    · rename_i hk
      split at h
      · exact absurd h (by simp)
      · rename_i hguard
        split at h
        · exact absurd h (by simp)
        · rename_i inst heq
          simp at h
          obtain ⟨h1, h2⟩ := h
          subst h1
          subst h2
          simp only [autowire]
          rw [if_neg hk, if_neg hguard, heq]
        · rename_i heqL
          split at h
          · exact absurd h (by simp)
          · rename_i sys2 args heq2
            have hbm : sys1.app.beanMap = sys.app.beanMap := hpres.1
            split at h
            all_goals (
              simp at h
              obtain ⟨h1, h2⟩ := h
              simp only [autowire]
              rw [if_neg hk, if_neg (by rw [← h1] at hbm ⊢; rw [hbm]; exact hguard)]
              rw [← h1]
              simp [List.lookup, h2])

/-- Resolving a Middleware/Service class against an empty request registry
on a non-scan path constructs a fresh instance: a plain object whose id is
at least the starting counter and strictly below the final counter. -/
theorem autowire_fresh (env : ClassEnv) (f : Nat) (app : AppState) (req : ReqState)
    (cls : String) (sys1 : Sys) (i : Inst)
    (hreg : req.registry = []) (hpath : req.path ≠ LESSWEB_SCAN_PATH)
    (hk : (env cls).kind = .middleware ∨ (env cls).kind = .service)
    (h : autowire env f ⟨app, req⟩ cls = .ok (sys1, i)) :
    ∃ n, i = .obj n ∧ app.nextId ≤ n ∧ n < sys1.app.nextId := by
  cases f with
  | zero => simp [autowire] at h
  | succ f =>
    have hk' : (env cls).kind ≠ .requestCls := by
      rcases hk with hh | hh <;> simp [hh]
    simp only [autowire] at h
    rw [if_neg hk'] at h
    split at h
    · exact absurd h (by simp)
    · rename_i hguard
      rw [show (Sys.mk app req).req.registry = [] from hreg] at h
      simp only [List.lookup] at h
      split at h
      · exact absurd h (by simp)
      · rename_i sys2 args heq2
        have hmarkpres := resolveList_pres SysPres (fun a b c => sysPres_trans) sysPres_refl _
          (by
            intro s d s' a hok
            split at hok
            · split at hok
              · exact absurd hok (by simp)
              · rename_i app' id heqm
                simp at hok
                obtain ⟨h1, _⟩ := hok
                subst h1
                have := autowireModule_beanMap_nextId env f s.app d app' id heqm
                exact ⟨this.1, rfl, rfl, this.2⟩
            · exact autowire_pres env f s d s' a hok)
          _ _ _ _ heq2
        have hpath2 : sys2.req.path = req.path := hmarkpres.2.1
        have hnext2 : app.nextId ≤ sys2.app.nextId := hmarkpres.2.2.2
        rw [if_neg (by rw [hpath2]; exact hpath)] at h
        simp at h
        obtain ⟨h1, h2⟩ := h
        subst h2
        refine ⟨sys2.app.nextId, rfl, hnext2, ?_⟩
        rw [← h1]
        exact Nat.lt_succ_self _

/-- Two resolutions of a Middleware/Service class on two distinct fresh
requests (the second starting from the application state the first
produced), both off the scan path, yield distinct instances. -/
theorem autowire_distinct (env : ClassEnv) (f g : Nat) (app : AppState)
    (req1 req2 : ReqState) (cls : String) (sys1 sys2 : Sys) (i1 i2 : Inst)
    (hreg1 : req1.registry = []) (hreg2 : req2.registry = [])
    (hp1 : req1.path ≠ LESSWEB_SCAN_PATH) (hp2 : req2.path ≠ LESSWEB_SCAN_PATH)
    (hk : (env cls).kind = .middleware ∨ (env cls).kind = .service)
    (h1 : autowire env f ⟨app, req1⟩ cls = .ok (sys1, i1))
    (h2 : autowire env g ⟨sys1.app, req2⟩ cls = .ok (sys2, i2)) :
    i1 ≠ i2 := by
  obtain ⟨n1, hi1, _, hn1⟩ := autowire_fresh env f app req1 cls sys1 i1 hreg1 hp1 hk h1
  obtain ⟨n2, hi2, hn2, _⟩ := autowire_fresh env g sys1.app req2 cls sys2 i2 hreg2 hp2 hk h2
  subst hi1
  subst hi2
  simp only [ne_eq, Inst.obj.injEq]
  omega

/-! ## Claim C1: scope-correct memoization -/

/-- C1, counterexample to the cross-request distinctness part.  On the
internal scan path `LESSWEB_SCAN_PATH`, `autowire` stores and returns the
literal `'✔'` (one shared interned string constant) as the "instance" for
every type, so two resolutions of the same Service class on two distinct
requests return the identical `'✔'` object, not distinct instances. -/
theorem C1_scan_path_counterexample :
    (autowire envSvc 9 ⟨app0, reqScan 1⟩ "S").toOption.map Prod.snd = some Inst.check
  ∧ (autowire envSvc 9 ⟨app0, reqScan 2⟩ "S").toOption.map Prod.snd = some Inst.check
  ∧ (reqScan 1).rid ≠ (reqScan 2).rid :=
  ⟨rfl, rfl, by simp [reqScan]⟩

/-- C1 (amended): for every process-scope (Module) type, two resolutions
against the same Application registry return the identical cached instance;
for every type, two resolutions within one request return the identical
instance; and for every request-scope (Service/Middleware) type, two
resolutions against two distinct fresh requests whose path is not the
internal scan path `LESSWEB_SCAN_PATH` return distinct instances (on the
scan path every resolution returns the shared `'✔'` placeholder). -/
theorem C1_scope_memoization :
    (∀ env f g app cls app1 i,
        autowireModule env f app cls = .ok (app1, i) →
        autowireModule env (g + 1) app1 cls = .ok (app1, i))
  ∧ (∀ env f g sys cls sys1 i,
        autowire env f sys cls = .ok (sys1, i) →
        autowire env (g + 1) sys1 cls = .ok (sys1, i))
  ∧ (∀ env f g app req1 req2 cls sys1 sys2 i1 i2,
        req1.registry = [] → req2.registry = [] →
        req1.path ≠ LESSWEB_SCAN_PATH → req2.path ≠ LESSWEB_SCAN_PATH →
        ((env cls).kind = .middleware ∨ (env cls).kind = .service) →
        autowire env f ⟨app, req1⟩ cls = .ok (sys1, i1) →
        autowire env g ⟨sys1.app, req2⟩ cls = .ok (sys2, i2) →
        i1 ≠ i2) :=
  ⟨autowireModule_idem,
   autowire_idem,
   fun env f g app req1 req2 cls sys1 sys2 i1 i2 hr1 hr2 hp1 hp2 hk h1 h2 =>
     autowire_distinct env f g app req1 req2 cls sys1 sys2 i1 i2 hr1 hr2 hp1 hp2 hk h1 h2⟩

/-- Witness for C1: the module `M` resolved twice against one application,
the service `S` resolved twice on one request, and `S` resolved on two
distinct fresh requests yielding the distinct objects 0 and 1. -/
theorem C1_scope_memoization_witness :
    autowireModule envMod 6 appM1 "M" = .ok (appM1, 0)
  ∧ autowire envSvc 6 sysS1 "S" = .ok (sysS1, .obj 0)
  ∧ Inst.obj 0 ≠ Inst.obj 1 :=
  ⟨C1_scope_memoization.1 envMod 5 5 app0 "M" appM1 0 rfl,
   C1_scope_memoization.2.1 envSvc 5 5 ⟨app0, reqPlain 1⟩ "S" sysS1 (.obj 0) rfl,
   C1_scope_memoization.2.2 envSvc 5 5 app0 (reqPlain 1) (reqPlain 2) "S" sysS1 sysS2
     (.obj 0) (.obj 1) rfl rfl (by decide) (by decide) (Or.inr rfl) rfl rfl⟩

/-! ## Claim C2: cycle detection -/

/-- C2: a registry slot already marked PENDING (stored `None`) that is
observed again raises the circular-dependency `RuntimeError`, in both
process-scope and request-scope resolution (for request scope, provided the
class is not `Request` itself and passes the Middleware/Service/bean
`assert`, both of which the source checks first); and the concrete cycles
`A → B → A` (modules) and `SA → SB → SA` (services) fail with the
circular-dependency error naming the entry class on the second entry. -/
theorem C2_cycle_detection :
    (∀ (env : ClassEnv) (f : Nat) (app : AppState) (cls : String),
        app.registry.lookup cls = some Option.none →
        autowireModule env (f + 1) app cls = .error (.circularDependency cls))
  ∧ (∀ (env : ClassEnv) (f : Nat) (sys : Sys) (cls : String),
        (env cls).kind ≠ .requestCls →
        ((sys.app.beanMap.lookup cls).isSome ∨ (env cls).kind = .middleware ∨
          (env cls).kind = .service) →
        sys.req.registry.lookup cls = some Option.none →
        autowire env (f + 1) sys cls = .error (.circularDependency cls))
  ∧ autowireModule envCycleM 9 app0 "A" = .error (.circularDependency "A")
  ∧ autowire envCycleS 9 ⟨app0, reqPlain 1⟩ "SA" = .error (.circularDependency "SA") := by
  refine ⟨?_, ?_, rfl, rfl⟩
  · intro env f app cls h
    simp [autowireModule, h]
  · intro env f sys cls hk hcap h
    have hguard : ¬(¬(sys.app.beanMap.lookup cls).isSome = true ∧
        (env cls).kind ≠ ClassKind.middleware ∧ (env cls).kind ≠ ClassKind.service) := by
      rcases hcap with hc | hc | hc <;> simp [hc]
    simp only [autowire]
    rw [if_neg hk, if_neg hguard, h]

/-- Witness for C2: the general pending-slot laws applied to concrete
states whose slot for the class is PENDING. -/
theorem C2_cycle_detection_witness :
    autowireModule envMod 4 ⟨[("X", Option.none)], [], [], [], [], 0⟩ "X"
      = .error (.circularDependency "X")
  ∧ autowire envSvc 4 ⟨app0, ⟨1, "/x", [("S", Option.none)], Option.none, "", [], []⟩⟩ "S"
      = .error (.circularDependency "S") :=
  ⟨C2_cycle_detection.1 envMod 3 ⟨[("X", Option.none)], [], [], [], [], 0⟩ "X" rfl,
   C2_cycle_detection.2.1 envSvc 3 ⟨app0, ⟨1, "/x", [("S", Option.none)], Option.none, "", [], []⟩⟩
     "S" (by simp [envSvc]) (Or.inr (Or.inr rfl)) rfl⟩

/-! ## Claim C3: the Request Data Stack protocol -/

/-- C3: binding a handler's positional-only (BODY) parameters in
declaration order, (1) each parameter pops the most recently pushed value
from the per-request stack — with `k` bytes-typed BODY parameters and a
stack of length `k`, the bound positional arguments are the stack reversed
(last pushed bound first); (2) when the stack is empty (or not yet
initialized) and no BODY argument has been bound yet, the raw request
payload is read instead; (3) when the stack is empty and a BODY argument
was already bound, binding fails with the `request stack is empty for
param` error naming that parameter — a handler declaring three BODY
parameters with only two pushed payloads fails naming the third. -/
theorem C3_request_data_stack :
    (∀ (env : ClassEnv) (f : Nat) (names : List String) (s : List String) (sys : Sys)
        (args0 : List ArgVal),
        sys.req.stackSlot = some s → s.length = names.length →
        ∃ sys', bindParams env f (names.map bytesParam) sys args0 []
          = .ok (sys', args0 ++ (s.reverse.map ArgVal.raw), []))
  ∧ (∀ (env : ClassEnv) (f : Nat) (nm : String) (sys : Sys),
        sys.req.stackSlot = some [] ∨ sys.req.stackSlot = Option.none →
        bindParams env f [bytesParam nm] sys [] []
          = .ok ({ sys with req := { sys.req with stackSlot := some [] } },
                 [.raw sys.req.payload], []))
  ∧ (∀ (env : ClassEnv) (f : Nat) (n1 n2 n3 b1 b2 : String) (sys : Sys),
        sys.req.stackSlot = some [b1, b2] →
        bindParams env f [bytesParam n1, bytesParam n2, bytesParam n3] sys [] []
          = .error (.stackEmptyForParam n3)) := by
  refine ⟨?_, ?_, ?_⟩
  · intro env f names
    induction names with
    | nil =>
      intro s sys args0 hslot hlen
      have hs : s = [] := List.eq_nil_of_length_eq_zero hlen
      subst hs
      exact ⟨sys, by simp [bindParams]⟩
    | cons nm rest ih =>
      intro s sys args0 hslot hlen
      rcases List.eq_nil_or_concat s with hs | ⟨L, b, hs⟩
      · subst hs; simp at hlen
      · rw [List.concat_eq_append] at hs
        subst hs
        have hlenL : L.length = rest.length := by
          simp [List.length_append] at hlen
          omega
        have hne : (L ++ [b]).isEmpty = false := by simp
        simp only [List.map_cons, bindParams, bytesParam, getRequestStack, hslot, hne,
          Bool.false_eq_true, if_false, List.getLast?_concat, List.dropLast_concat]
        obtain ⟨sys', heq⟩ := ih L
          { sys with req := { sys.req with stackSlot := some L } } (args0 ++ [.raw b]) rfl hlenL
        refine ⟨sys', ?_⟩
        rw [heq]
        simp
  · intro env f nm sys hslot
    rcases hslot with hslot | hslot <;>
      simp [bindParams, bytesParam, getRequestStack, hslot]
  · intro env f n1 n2 n3 b1 b2 sys hslot
    simp [bindParams, bytesParam, getRequestStack, hslot]

/-- Witness for C3: two pushed payloads bound to two bytes parameters in
LIFO order; the payload fallback; and three BODY parameters over a
two-element stack failing on the third (`"r"`). -/
theorem C3_request_data_stack_witness :
    (bindParams envNone 7 [bytesParam "p", bytesParam "q"] (sysFix (some ["b1", "b2"])) [] []
      ).toOption.map (fun t => (t.2.1, t.2.2)) = some ([.raw "b2", .raw "b1"], [])
  ∧ bindParams envNone 7 [bytesParam "p"] (sysFix Option.none) [] []
      = .ok ({ sysFix Option.none with
               req := { (sysFix Option.none).req with stackSlot := some [] } },
             [.raw "PAYLOAD"], [])
  ∧ bindParams envNone 7 [bytesParam "p", bytesParam "q", bytesParam "r"]
      (sysFix (some ["b1", "b2"])) [] [] = .error (.stackEmptyForParam "r") := by
  refine ⟨?_, ?_, ?_⟩
  · obtain ⟨sys', h⟩ := C3_request_data_stack.1 envNone 7 ["p", "q"] ["b1", "b2"]
      (sysFix (some ["b1", "b2"])) [] rfl rfl
    rw [show ([bytesParam "p", bytesParam "q"] : List Param)
          = (["p", "q"].map bytesParam) from rfl, h]
    rfl
  · exact C3_request_data_stack.2.1 envNone 7 "p" (sysFix Option.none) (Or.inr rfl)
  · exact C3_request_data_stack.2.2 envNone 7 "p" "q" "r" "b1" "b2"
      (sysFix (some ["b1", "b2"])) rfl

/-! ## Claim C5: query/path parameter fallback order -/

/-- C5, counterexample to the default-precedence part.  For a keyword-only
parameter declaring *both* a literal default (`5`) and a `DefaultFactory`
tag (producing `7`), an absent value binds the literal default: the source
(ioc.py lines 419-422) consults `spawn_default_factory` only when the
declared default is `inspect.Signature.empty`, the opposite of the claim's
"default-factory if present, else the literal default". -/
theorem C5_default_order_counterexample :
    bindParams envNone 9 [pBoth] (sysFix Option.none) [] []
      = .ok (sysFix Option.none, [], [("a", .val (.int 5))])
  ∧ KwVal.val (.int 5) ≠ KwVal.val (.int 7) :=
  ⟨rfl, by simp⟩

/-- C5 (amended): for every keyword-only (QUERY_OR_PATH) parameter, the
value is resolved by name preferring a path-template variable over a
query-string variable of the same name (the conclusion uses the path value
whatever the query map holds); when the value is absent, the parameter's
declared literal default is used if declared, else a metadata-declared
default-factory if present, else binding fails with the
`missing required parameter` error naming the parameter. -/
theorem C5_query_param_binding :
    (∀ (env : ClassEnv) (f : Nat) (nm : String) (t : Tp) (sys : Sys)
        (dflt : Option PyValue) (metas : List Meta) (v : String) (r : PyValue),
        sys.req.matchInfo.lookup nm = some v →
        validateQuery f v t = .ok r →
        bindParams env f [⟨nm, .ty t, dflt, .keywordOnly, metas⟩] sys [] []
          = .ok (sys, [], [(nm, .val r)]))
  ∧ (∀ (env : ClassEnv) (f : Nat) (nm : String) (t : Tp) (sys : Sys)
        (d : PyValue) (metas : List Meta),
        sys.req.matchInfo.lookup nm = Option.none →
        sys.req.query.lookup nm = Option.none →
        bindParams env f [⟨nm, .ty t, some d, .keywordOnly, metas⟩] sys [] []
          = .ok (sys, [], [(nm, .val d)]))
  ∧ (∀ (env : ClassEnv) (f : Nat) (nm : String) (t : Tp) (sys : Sys) (fv : PyValue),
        sys.req.matchInfo.lookup nm = Option.none →
        sys.req.query.lookup nm = Option.none →
        bindParams env f [⟨nm, .ty t, Option.none, .keywordOnly, [.defaultFactory fv]⟩] sys [] []
          = .ok (sys, [], [(nm, .val fv)]))
  ∧ (∀ (env : ClassEnv) (f : Nat) (nm : String) (t : Tp) (sys : Sys),
        sys.req.matchInfo.lookup nm = Option.none →
        sys.req.query.lookup nm = Option.none →
        bindParams env f [⟨nm, .ty t, Option.none, .keywordOnly, []⟩] sys [] []
          = .error (.missingRequiredParameter nm)) := by
  refine ⟨?_, ?_, ?_, ?_⟩
  · intro env f nm t sys dflt metas v r hm hv
    simp [bindParams, hm, Ann.toTp, hv]
  · intro env f nm t sys d metas hm hq
    simp [bindParams, hm, hq]
  · intro env f nm t sys fv hm hq
    simp [bindParams, hm, hq, spawnDefaultFactory]
  · intro env f nm t sys hm hq
    simp [bindParams, hm, hq, spawnDefaultFactory]

/-- Witness for C5: on a request carrying `id` as path variable `"42"` and
query variable `"999"`, the bound value is the coerced path value `42`;
and with no value and no defaults, binding fails naming the parameter. -/
theorem C5_query_param_binding_witness :
    bindParams envNone 9 [⟨"id", .ty .int, Option.none, .keywordOnly, []⟩] sysQP [] []
      = .ok (sysQP, [], [("id", .val (.int 42))])
  ∧ bindParams envNone 9 [⟨"absent", .ty .int, Option.none, .keywordOnly, []⟩] sysQP [] []
      = .error (.missingRequiredParameter "absent") :=
  ⟨C5_query_param_binding.1 envNone 9 "id" .int sysQP Option.none [] "42" (.int 42) rfl rfl,
   C5_query_param_binding.2.2.2 envNone 9 "absent" .int sysQP rfl rfl⟩

/-! ## Claim C8: response adaptation -/

/-- C8: the adaptation cascade of `aio_route_endpoint`, case by case: a
result that is already a `StreamResponse` is returned unchanged; with a
declared pydantic-model response type, a (non-stream) result is
re-validated by `model_validate` before JSON serialization; a structured
`dict`/`list` result is serialized to JSON; a `None` result produces the
empty 204 response; any other scalar result becomes a text response with
the handler's first `TextResponse` tag's content type, defaulting to
`text/plain`. -/
theorem C8_response_adaptation :
    (∀ ra tm vo i, adaptResponse ra tm vo (.stream i) = .passthrough i)
  ∧ (∀ m tm vo r, (∀ i, r ≠ .stream i) → vo m r = true →
        adaptResponse (.pydanticModel m) tm vo r = .jsonResp (.modelValidated m r))
  ∧ (∀ tm vo xs, adaptResponse .other tm vo (.pyVal (.dict xs))
        = .jsonResp (.direct (.pyVal (.dict xs))))
  ∧ (∀ tm vo xs, adaptResponse .other tm vo (.pyVal (.list xs))
        = .jsonResp (.direct (.pyVal (.list xs))))
  ∧ (∀ tm vo, adaptResponse .other tm vo (.pyVal .none) = .noContent)
  ∧ (∀ vo s ct rest, adaptResponse .other (ct :: rest) vo (.pyVal (.str s))
        = .textResp s ct)
  ∧ (∀ vo s, adaptResponse .other [] vo (.pyVal (.str s)) = .textResp s "text/plain")
  ∧ (∀ vo n, adaptResponse .other [] vo (.pyVal (.int n))
        = .textResp (toString n) "text/plain") := by
  refine ⟨?_, ?_, ?_, ?_, ?_, ?_, ?_, ?_⟩ <;>
    try (intros; rfl)
  intro m tm vo r hns hvo
  cases r with
  | stream i => exact absurd rfl (hns i)
  | pyVal v => simp [adaptResponse, hvo]
  | dataclassObj j => simp [adaptResponse, hvo]
  | pydanticObj j => simp [adaptResponse, hvo]

/-- Witness for C8: the re-validation case applied to a dict result under
an always-accepting `model_validate`. -/
theorem C8_response_adaptation_witness :
    adaptResponse (.pydanticModel "PetModel") [] (fun _ _ => true)
        (.pyVal (.dict [("name", .str "john")]))
      = .jsonResp (.modelValidated "PetModel" (.pyVal (.dict [("name", .str "john")]))) :=
  C8_response_adaptation.2.1 "PetModel" [] (fun _ _ => true)
    (.pyVal (.dict [("name", .str "john")])) (fun _ h => HandlerResult.noConfusion h) rfl

/-! ## Claim C9: push_request_stack / get_request_stack -/

/-- C9: `push_request_stack` raises `TypeError('value must be bytes')` for
every non-bytes value, before the stack is touched (the error return leaves
the request unchanged); for a bytes value it appends exactly that one
element to the stack returned by `get_request_stack`; and
`get_request_stack` initializes the slot to an empty list on first access
to a request. -/
theorem C9_push_request_stack :
    (∀ (req : ReqState) (v : PyValue),
        pushRequestStack req (.nonBytes v) = .error "value must be bytes")
  ∧ (∀ (req : ReqState) (b : String),
        pushRequestStack req (.bytes b)
          = .ok { (getRequestStack req).1 with
                  stackSlot := some ((getRequestStack req).2 ++ [b]) })
  ∧ (∀ rid path reg payload mi q,
        getRequestStack ⟨rid, path, reg, Option.none, payload, mi, q⟩
          = (⟨rid, path, reg, some [], payload, mi, q⟩, [])) :=
  ⟨fun _ _ => rfl, fun _ _ => rfl, fun _ _ _ _ _ _ => rfl⟩

/-! ## Claim C10: typecast identity and idempotence -/

/-- C10, counterexample to the idempotence part.  For the non-Union,
non-Literal type `tpIdem = list[Union[list[V], list[Union[int, str]]]]`
with `V = Union[Literal[5], list[Literal['a']]]` and the input
`[["a", "5"]]`: the first coercion takes the second union arm (the first
fails because `V` rejects the string `"5"`), producing `[["a", 5]]`; but
re-coercing that output now satisfies the *first* arm, which transforms
`"a"` into `["a"]`, producing `[[["a"], 5]]` — a different value.  So
`typecast(typecast(d, tp), tp) ≠ typecast(d, tp)` on this output. -/
theorem C10_idempotence_counterexample :
    typecast 99 dIdem tpIdem = .ok (.list [.list [.str "a", .int 5]])
  ∧ typecast 99 (.list [.list [.str "a", .int 5]]) tpIdem
      = .ok (.list [.list [.list [.str "a"], .int 5]])
  ∧ PyValue.list [.list [.list [.str "a"], .int 5]] ≠ PyValue.list [.list [.str "a", .int 5]]
  ∧ tpIdem.isUnionHead = false ∧ tpIdem.isLiteralHead = false :=
  ⟨rfl, rfl, by simp, rfl, rfl⟩

/-- C10 (amended): for every non-Union, non-Literal target type and every
input that is already an instance of the type (in the `isinstance_safe`
sense the source uses at typecast.py line 167), `typecast` returns the
input itself unchanged; consequently re-coercing an output that is itself
an instance of the type returns it unchanged.  (Idempotence on *all*
outputs fails — see the counterexample — because nested Union arms can
coerce an already-coerced value differently.) -/
theorem C10_instance_identity :
    (∀ (f : Nat) (data : PyValue) (tp : Tp),
        tp.isUnionHead = false → tp.isLiteralHead = false →
        isinstancePy data tp = true →
        typecast (f + 1) data tp = .ok data)
  ∧ (∀ (f g : Nat) (d : PyValue) (tp : Tp) (r : PyValue),
        tp.isUnionHead = false → tp.isLiteralHead = false →
        typecast f d tp = .ok r → isinstancePy r tp = true →
        typecast (g + 1) r tp = .ok r) := by
  have h1 : ∀ (f : Nat) (data : PyValue) (tp : Tp),
      tp.isUnionHead = false → tp.isLiteralHead = false →
      isinstancePy data tp = true →
      typecast (f + 1) data tp = .ok data := by
    intro f data tp hu hl hi
    cases tp <;> simp_all [typecast, isinstancePy, Tp.isUnionHead, Tp.isLiteralHead]
  exact ⟨h1, fun f g d tp r hu hl _ hi => h1 g r tp hu hl hi⟩

/-- Witness for C10: an `int` input under the `int` type is returned
unchanged, and the output of coercing `"7"` to `int` (the int `7`, an
instance of `int`) re-coerces to itself. -/
theorem C10_instance_identity_witness :
    typecast 1 (.int 7) .int = .ok (.int 7)
  ∧ typecast 3 (.int 7) .int = .ok (.int 7) :=
  ⟨C10_instance_identity.1 0 (.int 7) .int rfl rfl rfl,
   C10_instance_identity.2 2 2 (.str "7") .int (.int 7) rfl rfl rfl rfl⟩

end Lessweb
